import Mathlib

/-!
Verification of the prism-microservices domain layer
(`src/domain/utils/crud.py`, `src/domain/utils/db.py`, `src/domain/models/*`).

The document store (MongoDB via motor) is modelled per collection as a Lean
list of typed documents mirroring the pydantic models.  Each asynchronous
operation becomes a pure state-passing function on a `DB` record; the
store-assigned ObjectId, and each `datetime.now()` clock reading, are passed
explicitly as parameters.  `update_one` is modelled as an update of the first
document matching the filter, `update_many` as a map over all matching
documents, and `insert_one` as an append.  ObjectIds are modelled as `Nat`,
datetimes as `Nat` (only ordering and equality of timestamps matter to this
layer), and `float` payloads that the layer stores but never computes with are
carried as `Rat`.
-/

namespace Prism

/-- Timestamps: the layer only compares and stores them. -/
abbrev DateTime := Nat

/-- Native store identifiers (`bson.ObjectId`). -/
abbrev ObjectId := Nat

/-- A caller-supplied identifier: either a native `ObjectId` or a raw string
(the `str | ObjectId` parameter type used throughout `crud.py`/`db.py`). -/
inductive Ident where
  | oid (o : ObjectId)
  | str (s : String)
deriving DecidableEq, Repr

/-- Hex digit test used by `bson.ObjectId.is_valid` for 24-character strings. -/
def isHexDigitChar (c : Char) : Bool :=
  c.isDigit || (decide ('a' ≤ c) && decide (c ≤ 'f')) || (decide ('A' ≤ c) && decide (c ≤ 'F'))

/-- `bson.ObjectId.is_valid` on a string: a 24-character hex string. -/
def ObjectId.is_valid (s : String) : Bool :=
  s.length == 24 && s.toList.all isHexDigitChar

/-- Numeric value of one hex digit. -/
def hexVal (c : Char) : Nat :=
  if c.isDigit then c.toNat - 48
  else if decide ('a' ≤ c) && decide (c ≤ 'f') then c.toNat - 87
  else if decide ('A' ≤ c) && decide (c ≤ 'F') then c.toNat - 55
  else 0

/-- `bson.ObjectId(s)`: the 12-byte value denoted by a 24-char hex string. -/
def parseObjectId (s : String) : ObjectId :=
  s.toList.foldl (fun acc c => acc * 16 + hexVal c) 0

/-- The id normalization idiom repeated at the top of every operation:
`if isinstance(x, str) and ObjectId.is_valid(x): x = ObjectId(x)`.
An invalid string is NOT rejected: it is kept as-is. -/
def normalizeId : Ident → Ident
  | .oid o => .oid o
  | .str s => if ObjectId.is_valid s then .oid (parseObjectId s) else .str s

/-- BSON equality between a filter value and a document's `ObjectId`-typed
field: a raw string never equals an `ObjectId`. -/
def identMatches (i : Ident) (o : ObjectId) : Bool :=
  match i with
  | .oid o' => o == o'
  | .str _ => false

/-- Errors surfaced by the layer.  `invalidIdentifier` is the
`ValueError("Invalid ObjectId")` raised by `PyObjectId.validate` during
pydantic entity construction; `storeError` stands for a driver/network
exception raised by an awaited store call. -/
inductive DomainError where
  | invalidIdentifier
  | storeError
deriving DecidableEq, Repr

/-- `PyObjectId.validate` (models/base.py): accept a native id or a valid
string, raise `ValueError("Invalid ObjectId")` otherwise. -/
def PyObjectId.validate : Ident → Except DomainError ObjectId
  | .oid o => .ok o
  | .str s => if ObjectId.is_valid s then .ok (parseObjectId s) else .error .invalidIdentifier

/-- Validation of an `Optional[PyObjectId]` field: `None` is accepted. -/
def validateOpt : Option Ident → Except DomainError (Option ObjectId)
  | none => .ok none
  | some i => (PyObjectId.validate i).map some

/-- `dict[str, float]` sensor values; stored opaquely, never computed with. -/
abbrev SensorValues := List (String × Rat)

/-- Opaque JSON payload (`dict[str, Any]`); this layer never inspects it. -/
abbrev JsonData := String

/-- `Machine` (models/machine.py), collection `machines`. -/
structure MachineDoc where
  _id : ObjectId
  machine_id : String
  first_seen : DateTime
  last_seen : DateTime
deriving DecidableEq, Repr

/-- `SensorReading` (models/reading.py), collection `readings`. -/
structure ReadingDoc where
  _id : ObjectId
  timestamp : DateTime
  values : SensorValues
  machine_id : ObjectId
  failure_id : Option ObjectId
deriving DecidableEq, Repr

/-- `Failure` (models/failure.py), collection `failures`.  `end_time = none`
models the `end_time` field being absent from the stored document
(`exclude_none=True` on insert). -/
structure FailureDoc where
  _id : ObjectId
  start_time : DateTime
  end_time : Option DateTime
  is_active : Bool
  machine_id : ObjectId
deriving DecidableEq, Repr

/-- `Cluster` (models/cluster.py), collection `clusters`. -/
structure ClusterDoc where
  _id : ObjectId
  mlflow_run_id : String
  mlflow_model_version : Int
  created_at : DateTime
  is_active : Bool
  n_clusters : Int
  silhouette_score : Rat
  cluster_profiles : JsonData
deriving DecidableEq, Repr

/-- `ModelVersion` (models/version.py), collection `versions`. -/
structure VersionDoc where
  _id : ObjectId
  version : String
  run_id : String
  created_at : DateTime
  is_processed : Bool
deriving DecidableEq, Repr

/-- The document store: one list of documents per collection used by the
operations under verification. -/
structure DB where
  machines : List MachineDoc
  readings : List ReadingDoc
  failures : List FailureDoc
  clusters : List ClusterDoc
  versions : List VersionDoc
deriving DecidableEq, Repr

/-- The empty store. -/
def dbEmpty : DB := ⟨[], [], [], [], []⟩

/-- `collection.update_one(filter, {"$set": ...})`: update the first document
matching the filter; the returned flag is `matched_count > 0`. -/
def updateFirst {α : Type} (p : α → Bool) (f : α → α) : List α → List α × Bool
  | [] => ([], false)
  | a :: l =>
    if p a then (f a :: l, true)
    else (a :: (updateFirst p f l).1, (updateFirst p f l).2)

/-- `collection.delete_one(filter)`: remove the first document matching the
filter; the returned flag is `deleted_count > 0`. -/
def deleteFirst {α : Type} (p : α → Bool) : List α → List α × Bool
  | [] => ([], false)
  | a :: l =>
    if p a then (l, true)
    else (a :: (deleteFirst p l).1, (deleteFirst p l).2)

/-- `update_document` (crud.py): normalize the id, then
`update_one({"_id": doc_id}, {"$set": update_data})`; returns
`matched_count > 0`.  The collection and the partial `$set` payload are
abstracted as a document type `α` with its id projection and the field
merge `applySet`. -/
def update_document {α : Type} (getId : α → ObjectId) (applySet : α → α)
    (docs : List α) (doc_id : Ident) : List α × Bool :=
  let did := normalizeId doc_id
  updateFirst (fun d => identMatches did (getId d)) applySet docs

/-- `delete_document` (crud.py): normalize the id, then
`delete_one({"_id": doc_id})`. -/
def delete_document {α : Type} (getId : α → ObjectId)
    (docs : List α) (doc_id : Ident) : List α × Bool :=
  let did := normalizeId doc_id
  deleteFirst (fun d => identMatches did (getId d)) docs

/-- `get_document_by_id` (db.py): normalize the id, then
`find_one({"_id": doc_id})`. -/
def get_document_by_id {α : Type} (getId : α → ObjectId)
    (docs : List α) (doc_id : Ident) : Option α :=
  let did := normalizeId doc_id
  docs.find? (fun d => identMatches did (getId d))

/-- `create_machine` (crud.py): insert a `Machine` whose `first_seen` and
`last_seen` come from two successive `datetime.now()` readings `now1`, `now2`;
`mid` is the generated document id. -/
def create_machine (db : DB) (machine_id : String) (mid : ObjectId)
    (now1 now2 : DateTime) : DB × ObjectId :=
  ({ db with machines :=
      db.machines ++ [{ _id := mid, machine_id := machine_id,
                        first_seen := now1, last_seen := now2 }] }, mid)

/-- `update_machine_last_seen` (crud.py): normalize the id, then
`update_one({"_id": machine_id}, {"$set": {"last_seen": now}})`. -/
def update_machine_last_seen (db : DB) (machine_id : Ident) (now : DateTime) :
    DB × Bool :=
  let mid := normalizeId machine_id
  let r := updateFirst (fun m => identMatches mid m._id)
      (fun m => { m with last_seen := now }) db.machines
  ({ db with machines := r.1 }, r.2)

/-- `create_sensor_reading` (crud.py): normalize both ids, construct the
`SensorReading` (pydantic validates the reference fields here and raises on an
invalid string), insert it, then touch the owning machine's `last_seen`.
`rid` is the generated reading id, `now` the `datetime.now()` default for the
timestamp, `touchNow` the clock reading inside the cascaded touch. -/
def create_sensor_reading (db : DB) (machine_id : Ident) (values : SensorValues)
    (timestamp : Option DateTime) (failure_id : Option Ident)
    (rid : ObjectId) (now touchNow : DateTime) :
    Except DomainError (DB × ObjectId) :=
  let mid := normalizeId machine_id
  let fid := failure_id.map normalizeId
  match PyObjectId.validate mid, validateOpt fid with
  | .ok midV, .ok fidV =>
    let reading : ReadingDoc :=
      { _id := rid, timestamp := timestamp.getD now, values := values,
        machine_id := midV, failure_id := fidV }
    let db1 := { db with readings := db.readings ++ [reading] }
    let r2 := update_machine_last_seen db1 mid touchNow
    .ok (r2.1, rid)
  | .error e, _ => .error e
  | .ok _, .error e => .error e

/-- `create_sensor_reading` with a fault injected at the cascaded
`await update_machine_last_seen(...)` store call: the driver raises after the
reading was already inserted.  Returns the store state actually reached
together with the raised/returned outcome. -/
def create_sensor_reading_cascadeFault (db : DB) (machine_id : Ident)
    (values : SensorValues) (timestamp : Option DateTime)
    (failure_id : Option Ident) (rid : ObjectId) (now : DateTime) :
    DB × Except DomainError ObjectId :=
  let mid := normalizeId machine_id
  let fid := failure_id.map normalizeId
  match PyObjectId.validate mid, validateOpt fid with
  | .ok midV, .ok fidV =>
    let reading : ReadingDoc :=
      { _id := rid, timestamp := timestamp.getD now, values := values,
        machine_id := midV, failure_id := fidV }
    ({ db with readings := db.readings ++ [reading] }, .error .storeError)
  | .error e, _ => (db, .error e)
  | .ok _, .error e => (db, .error e)

/-- `create_failure` (crud.py): normalize and validate the machine reference,
insert a `Failure` with `is_active = true` and no `end_time` field.  `fid` is
the generated failure id, `now` the `datetime.now()` default start time. -/
def create_failure (db : DB) (machine_id : Ident) (start_time : Option DateTime)
    (fid : ObjectId) (now : DateTime) : Except DomainError (DB × ObjectId) :=
  let mid := normalizeId machine_id
  match PyObjectId.validate mid with
  | .ok midV =>
    let failure : FailureDoc :=
      { _id := fid, start_time := start_time.getD now, end_time := none,
        is_active := true, machine_id := midV }
    .ok ({ db with failures := db.failures ++ [failure] }, fid)
  | .error e => .error e

/-- `resolve_failure` (crud.py): normalize the id, then
`update_one({"_id": failure_id, "is_active": True},
{"$set": {"end_time": end_time or now, "is_active": False}})`;
returns `matched_count > 0`. -/
def resolve_failure (db : DB) (failure_id : Ident) (end_time : Option DateTime)
    (now : DateTime) : DB × Bool :=
  let fid := normalizeId failure_id
  let r := updateFirst (fun f => identMatches fid f._id && f.is_active)
      (fun f => { f with end_time := some (end_time.getD now), is_active := false })
      db.failures
  ({ db with failures := r.1 }, r.2)

/-- `update_many({"is_active": True}, {"$set": {"is_active": False}})` on the
clusters collection. -/
def deactivateAllClusters (l : List ClusterDoc) : List ClusterDoc :=
  l.map (fun c => if c.is_active then { c with is_active := false } else c)

/-- `create_cluster_model` (crud.py): when the new model is active, first bulk
deactivate every active cluster, then insert the new cluster document.
`cid` is the generated id, `now` the `datetime.now()` creation time. -/
def create_cluster_model (db : DB) (mlflow_run_id : String)
    (mlflow_model_version : Int) (n_clusters : Int) (silhouette_score : Rat)
    (cluster_profiles : JsonData) (is_active : Bool)
    (cid : ObjectId) (now : DateTime) : DB × ObjectId :=
  let db1 := if is_active then { db with clusters := deactivateAllClusters db.clusters }
             else db
  let cluster : ClusterDoc :=
    { _id := cid, mlflow_run_id := mlflow_run_id,
      mlflow_model_version := mlflow_model_version, created_at := now,
      is_active := is_active, n_clusters := n_clusters,
      silhouette_score := silhouette_score, cluster_profiles := cluster_profiles }
  ({ db1 with clusters := db1.clusters ++ [cluster] }, cid)

/-- `mark_model_version_processed` (crud.py): normalize the id, then
`update_one({"_id": version_id}, {"$set": {"is_processed": True}})`;
the filter does NOT require the version to be unprocessed. -/
def mark_model_version_processed (db : DB) (version_id : Ident) : DB × Bool :=
  let vid := normalizeId version_id
  let r := updateFirst (fun v => identMatches vid v._id)
      (fun v => { v with is_processed := true }) db.versions
  ({ db with versions := r.1 }, r.2)

/-- Newest-first order on readings (`.sort("timestamp", DESCENDING)`). -/
def newestFirst (a b : ReadingDoc) : Prop := b.timestamp ≤ a.timestamp

instance : DecidableRel newestFirst := fun a b => Nat.decLe b.timestamp a.timestamp

instance : IsTotal ReadingDoc newestFirst := ⟨fun a b => Nat.le_total b.timestamp a.timestamp⟩

instance : IsTrans ReadingDoc newestFirst := ⟨fun _ _ _ h1 h2 => le_trans h2 h1⟩

/-- A timestamp-descending ordering of a result set, as produced by the store
for `.sort("timestamp", DESCENDING)`. -/
def sortByTimestampDesc (l : List ReadingDoc) : List ReadingDoc :=
  l.insertionSort newestFirst

/-- `get_machine_readings` (db.py): normalize the id, then
`find({"machine_id": machine_id}).sort("timestamp", DESCENDING)`. -/
def get_machine_readings (db : DB) (machine_id : Ident) : List ReadingDoc :=
  let mid := normalizeId machine_id
  sortByTimestampDesc (db.readings.filter (fun r => identMatches mid r.machine_id))

/-- `get_readings_in_timerange` (db.py): normalize the id, then
`find({"machine_id": machine_id,
       "timestamp": {"$gte": start_time, "$lte": end_time}})
 .sort("timestamp", DESCENDING)`. -/
def get_readings_in_timerange (db : DB) (machine_id : Ident)
    (start_time end_time : DateTime) : List ReadingDoc :=
  let mid := normalizeId machine_id
  sortByTimestampDesc (db.readings.filter
    (fun r => identMatches mid r.machine_id
      && decide (start_time ≤ r.timestamp) && decide (r.timestamp ≤ end_time)))

/-- Index key direction (`pymongo.ASCENDING` / `pymongo.DESCENDING`). -/
inductive Dir where
  | asc
  | desc
deriving DecidableEq, Repr

/-- One `pymongo.IndexModel`: the ordered key list and the uniqueness flag. -/
structure IndexModel where
  keys : List (String × Dir)
  unique : Bool
deriving DecidableEq, Repr

/-- The index definitions created by `init_db` (db.py), collection by
collection, exactly as written in the source. -/
def init_db_indexes : List (String × List IndexModel) :=
  [ ("machines",
      [ ⟨[("machine_id", .asc)], true⟩,
        ⟨[("last_seen", .desc)], false⟩ ]),
    ("failures",
      [ ⟨[("machine_id", .asc)], false⟩,
        ⟨[("start_time", .desc)], false⟩,
        ⟨[("is_active", .asc)], false⟩ ]),
    ("readings",
      [ ⟨[("machine_id", .asc)], false⟩,
        ⟨[("timestamp", .desc)], false⟩,
        ⟨[("failure_id", .asc)], false⟩ ]),
    ("predictions",
      [ ⟨[("reading_id", .asc)], false⟩,
        ⟨[("prediction_time", .desc)], false⟩,
        ⟨[("reading_id", .asc), ("model_version", .asc)], true⟩ ]),
    ("clusters",
      [ ⟨[("mlflow_run_id", .asc)], true⟩,
        ⟨[("created_at", .desc)], false⟩,
        ⟨[("is_active", .asc)], false⟩ ]),
    ("drift",
      [ ⟨[("detection_time", .desc)], false⟩ ]),
    ("versions",
      [ ⟨[("version", .asc)], false⟩,
        ⟨[("created_at", .desc)], false⟩,
        ⟨[("is_processed", .asc)], false⟩ ]) ]

/-- The index enumeration exactly as the specification (§4.4) words it:
uniqueness on the machine external id; a machine-id plus time-descending
index on readings and on failures; an active-flag index on failures and on
clusters; uniqueness on the (reading, model_version) pair for predictions;
uniqueness on the cluster model-run identifier; and time-descending indexes
on drift events and model versions — no other indexes. -/
def spec_index_enumeration : List (String × List IndexModel) :=
  [ ("machines",
      [ ⟨[("machine_id", .asc)], true⟩ ]),
    ("failures",
      [ ⟨[("machine_id", .asc), ("start_time", .desc)], false⟩,
        ⟨[("is_active", .asc)], false⟩ ]),
    ("readings",
      [ ⟨[("machine_id", .asc), ("timestamp", .desc)], false⟩ ]),
    ("predictions",
      [ ⟨[("reading_id", .asc), ("model_version", .asc)], true⟩ ]),
    ("clusters",
      [ ⟨[("mlflow_run_id", .asc)], true⟩,
        ⟨[("is_active", .asc)], false⟩ ]),
    ("drift",
      [ ⟨[("detection_time", .desc)], false⟩ ]),
    ("versions",
      [ ⟨[("created_at", .desc)], false⟩ ]) ]

/-- The amended index enumeration: what `init_db` actually creates.  Per
collection — machines: unique machine_id plus a last_seen-descending index;
failures and readings: separate single-field indexes (machine id ascending, a
time-descending index, and the active flag on failures / the failure
reference on readings); predictions: reading reference, prediction-time
descending, and the unique (reading_id, model_version) pair; clusters: unique
run id, created_at descending, active flag; drift: detection-time descending;
versions: version, created_at descending, processed flag. -/
def amended_index_enumeration : List (String × List IndexModel) :=
  [ ("machines",
      [ ⟨[("machine_id", .asc)], true⟩,
        ⟨[("last_seen", .desc)], false⟩ ]),
    ("failures",
      [ ⟨[("machine_id", .asc)], false⟩,
        ⟨[("start_time", .desc)], false⟩,
        ⟨[("is_active", .asc)], false⟩ ]),
    ("readings",
      [ ⟨[("machine_id", .asc)], false⟩,
        ⟨[("timestamp", .desc)], false⟩,
        ⟨[("failure_id", .asc)], false⟩ ]),
    ("predictions",
      [ ⟨[("reading_id", .asc)], false⟩,
        ⟨[("prediction_time", .desc)], false⟩,
        ⟨[("reading_id", .asc), ("model_version", .asc)], true⟩ ]),
    ("clusters",
      [ ⟨[("mlflow_run_id", .asc)], true⟩,
        ⟨[("created_at", .desc)], false⟩,
        ⟨[("is_active", .asc)], false⟩ ]),
    ("drift",
      [ ⟨[("detection_time", .desc)], false⟩ ]),
    ("versions",
      [ ⟨[("version", .asc)], false⟩,
        ⟨[("created_at", .desc)], false⟩,
        ⟨[("is_processed", .asc)], false⟩ ]) ]

/-- The indexes a declaration table assigns to one collection. -/
def indexesFor (decl : List (String × List IndexModel)) (coll : String) :
    List IndexModel :=
  match decl.find? (fun e => e.1 == coll) with
  | some e => e.2
  | none => []

/-- The documents of the failures collection all satisfy
"active flag set iff end time absent". -/
def failureInvariant (db : DB) : Bool :=
  db.failures.all (fun f => f.is_active == f.end_time.isNone)

/-- Store states reachable through this layer's Failure operations: starting
from an empty failures collection and applying `create_failure` /
`resolve_failure`. -/
inductive FailureOpsReach : DB → Prop where
  | empty (db : DB) (h : db.failures = []) : FailureOpsReach db
  | step_create (db db' : DB) (mid : Ident) (st : Option DateTime)
      (fid : ObjectId) (now : DateTime) (rid : ObjectId)
      (h : FailureOpsReach db)
      (hc : create_failure db mid st fid now = .ok (db', rid)) :
      FailureOpsReach db'
  | step_resolve (db : DB) (fid : Ident) (et : Option DateTime) (now : DateTime)
      (h : FailureOpsReach db) :
      FailureOpsReach (resolve_failure db fid et now).1

/-! ### Helper lemmas about the store primitives -/

theorem updateFirst_of_forall_not {α : Type} (p : α → Bool) (f : α → α)
    (l : List α) (h : ∀ a ∈ l, p a = false) : updateFirst p f l = (l, false) := by
  induction l with
  | nil => rfl
  | cons a t ih =>
    have ha : p a = false := h a (List.mem_cons_self a t)
    have ht := ih (fun b hb => h b (List.mem_cons_of_mem a hb))
    simp [updateFirst, ha, ht]

theorem updateFirst_length {α : Type} (p : α → Bool) (f : α → α) (l : List α) :
    (updateFirst p f l).1.length = l.length := by
  induction l with
  | nil => rfl
  | cons a t ih => cases hpa : p a <;> simp [updateFirst, hpa, ih]

theorem updateFirst_snd_eq_any {α : Type} (p : α → Bool) (f : α → α) (l : List α) :
    (updateFirst p f l).2 = l.any p := by
  induction l with
  | nil => rfl
  | cons a t ih => cases hpa : p a <;> simp [updateFirst, hpa, ih]

theorem map_ite_eq_self_of_forall_not {α : Type} (p : α → Bool) (f : α → α)
    (l : List α) (h : ∀ a ∈ l, p a = false) :
    l.map (fun a => if p a then f a else a) = l := by
  induction l with
  | nil => rfl
  | cons a t ih =>
    have ha : p a = false := h a (List.mem_cons_self a t)
    have ht := ih (fun b hb => h b (List.mem_cons_of_mem a hb))
    simp [ha, ht]

theorem updateFirst_fst_eq_map {α : Type} (p : α → Bool) (f : α → α)
    (l : List α) (h : l.countP p ≤ 1) :
    (updateFirst p f l).1 = l.map (fun a => if p a then f a else a) := by
  induction l with
  | nil => rfl
  | cons a t ih =>
    cases hpa : p a with
    | false =>
      have ht : t.countP p ≤ 1 := by
        rw [List.countP_cons, hpa, if_neg Bool.false_ne_true, Nat.add_zero] at h
        exact h
      simp [updateFirst, hpa, ih ht]
    | true =>
      have ht0 : t.countP p = 0 := by
        rw [List.countP_cons, hpa, if_pos rfl] at h
        omega
      have hall : ∀ b ∈ t, p b = false := by
        intro b hb
        have := List.countP_eq_zero.mp ht0 b hb
        simpa using this
      simp [updateFirst, hpa, map_ite_eq_self_of_forall_not p f t hall]

theorem countP_le_one_of_nodup_key {α : Type} (getId : α → ObjectId)
    (p : α → Bool) (k : ObjectId) (hk : ∀ a, p a = true → getId a = k) :
    ∀ l : List α, (l.map getId).Nodup → l.countP p ≤ 1 := by
  intro l
  induction l with
  | nil => intro _; simp
  | cons a t ih =>
    intro hnd
    rw [List.map_cons, List.nodup_cons] at hnd
    obtain ⟨hna, hnt⟩ := hnd
    cases hpa : p a with
    | false =>
      rw [List.countP_cons, hpa, if_neg Bool.false_ne_true, Nat.add_zero]
      exact ih hnt
    | true =>
      have hka := hk a hpa
      have ht0 : t.countP p = 0 := by
        apply List.countP_eq_zero.mpr
        intro b hb hpb
        have hkb := hk b (by simpa using hpb)
        exact hna (List.mem_map.mpr ⟨b, hb, hkb.trans hka.symm⟩)
      rw [List.countP_cons, hpa, if_pos rfl, ht0]

theorem forall_not_updateFirst {α : Type} (p : α → Bool) (f : α → α)
    (hpf : ∀ a, p (f a) = false) :
    ∀ l : List α, l.countP p ≤ 1 → ∀ b ∈ (updateFirst p f l).1, p b = false := by
  intro l
  induction l with
  | nil => intro _ b hb; simp [updateFirst] at hb
  | cons a t ih =>
    intro h b hb
    cases hpa : p a with
    | true =>
      have ht0 : t.countP p = 0 := by
        rw [List.countP_cons, hpa, if_pos rfl] at h
        omega
      simp [updateFirst, hpa] at hb
      rcases hb with hb | hb
      · rw [hb]; exact hpf a
      · have := List.countP_eq_zero.mp ht0 b hb
        simpa using this
    | false =>
      have ht : t.countP p ≤ 1 := by
        rw [List.countP_cons, hpa, if_neg Bool.false_ne_true, Nat.add_zero] at h
        exact h
      simp [updateFirst, hpa] at hb
      rcases hb with hb | hb
      · rw [hb]; exact hpa
      · exact ih ht b hb

theorem updateFirst_after_kill {α : Type} (p : α → Bool) (f g : α → α)
    (hpf : ∀ a, p (f a) = false) (l : List α) (h : l.countP p ≤ 1) :
    updateFirst p g (updateFirst p f l).1 = ((updateFirst p f l).1, false) :=
  updateFirst_of_forall_not p g (updateFirst p f l).1
    (forall_not_updateFirst p f hpf l h)

theorem updateFirst_idem {α : Type} (p : α → Bool) (f : α → α)
    (hpf : ∀ a, p (f a) = p a) (hff : ∀ a, f (f a) = f a) :
    ∀ l : List α, updateFirst p f (updateFirst p f l).1 = updateFirst p f l := by
  intro l
  induction l with
  | nil => rfl
  | cons a t ih =>
    cases hpa : p a with
    | true => simp [updateFirst, hpa, hpf a, hff a]
    | false => simp [updateFirst, hpa, ih]

theorem deleteFirst_of_forall_not {α : Type} (p : α → Bool) (l : List α)
    (h : ∀ a ∈ l, p a = false) : deleteFirst p l = (l, false) := by
  induction l with
  | nil => rfl
  | cons a t ih =>
    have ha : p a = false := h a (List.mem_cons_self a t)
    have ht := ih (fun b hb => h b (List.mem_cons_of_mem a hb))
    simp [deleteFirst, ha, ht]

theorem mem_updateFirst_fst {α : Type} (p : α → Bool) (f : α → α) :
    ∀ (l : List α) (x : α), x ∈ (updateFirst p f l).1 →
      x ∈ l ∨ ∃ b, b ∈ l ∧ x = f b := by
  intro l
  induction l with
  | nil => intro x hx; simp [updateFirst] at hx
  | cons a t ih =>
    intro x hx
    cases hpa : p a with
    | true =>
      simp [updateFirst, hpa] at hx
      rcases hx with hx | hx
      · exact Or.inr ⟨a, List.mem_cons_self a t, hx⟩
      · exact Or.inl (List.mem_cons_of_mem a hx)
    | false =>
      simp [updateFirst, hpa] at hx
      rcases hx with hx | hx
      · exact Or.inl (by simp [hx])
      · rcases ih x hx with h | ⟨b, hb, hxb⟩
        · exact Or.inl (List.mem_cons_of_mem a h)
        · exact Or.inr ⟨b, List.mem_cons_of_mem a hb, hxb⟩

/-! ### Claim theorems -/

/-- C6: for every collection, id, and partial field set, the generic update
operation reports whether a document matched, applies the field merge to
exactly the document matching the id, is a no-op returning false when no
document matches, and never creates a document (the length of the collection
is unchanged). -/
theorem crud_C6_update_document {α : Type} (getId : α → ObjectId)
    (applySet : α → α) (docs : List α) (doc_id : Ident)
    (hnd : (docs.map getId).Nodup) :
    ((update_document getId applySet docs doc_id).2
        = docs.any (fun d => identMatches (normalizeId doc_id) (getId d)))
    ∧ ((update_document getId applySet docs doc_id).1
        = docs.map (fun d => if identMatches (normalizeId doc_id) (getId d)
            then applySet d else d))
    ∧ ((∀ d ∈ docs, identMatches (normalizeId doc_id) (getId d) = false) →
        update_document getId applySet docs doc_id = (docs, false))
    ∧ ((update_document getId applySet docs doc_id).1.length = docs.length) := by
  have hc1 : docs.countP (fun d => identMatches (normalizeId doc_id) (getId d)) ≤ 1 := by
    cases hni : normalizeId doc_id with
    | str s =>
      have h0 : docs.countP (fun d => identMatches (Ident.str s) (getId d)) = 0 :=
        List.countP_eq_zero.mpr (fun d _ hd => by simp [identMatches] at hd)
      rw [h0]
      omega
    | oid k =>
      apply countP_le_one_of_nodup_key getId _ k _ docs hnd
      intro a ha
      simpa [identMatches] using ha
  have hu : update_document getId applySet docs doc_id
      = updateFirst (fun d => identMatches (normalizeId doc_id) (getId d))
          applySet docs := rfl
  refine ⟨?_, ?_, ?_, ?_⟩
  · rw [hu]; exact updateFirst_snd_eq_any _ _ docs
  · rw [hu]; exact updateFirst_fst_eq_map _ _ docs hc1
  · intro hnone
    rw [hu]; exact updateFirst_of_forall_not _ _ docs hnone
  · rw [hu]; exact updateFirst_length _ _ docs

/-- C6 witness: on a one-machine collection, updating by the existing id
leaves the collection length unchanged. -/
theorem crud_C6_witness :
    (update_document (fun m : MachineDoc => m._id)
      (fun m => { m with last_seen := 9 }) [⟨1, "m1", 0, 0⟩] (Ident.oid 1)).1.length
      = 1 :=
  ((crud_C6_update_document (fun m : MachineDoc => m._id)
      (fun m => { m with last_seen := 9 }) [⟨1, "m1", 0, 0⟩] (Ident.oid 1)
      (by decide)).2.2.2).trans (by decide)

/-- C2: resolve-failure is a filtered update matching (id AND active=true)
setting the end time and clearing the active flag; whenever no active failure
with the given id exists (absent or already resolved) it returns false and
leaves the store unchanged; and after any resolve call, a second resolve on
the same id is a no-op returning false, so at most one active-to-resolved
transition can succeed per failure. -/
theorem crud_C2_resolve_failure (db : DB) (fid : ObjectId)
    (et1 et2 : Option DateTime) (n1 n2 : DateTime)
    (hnd : (db.failures.map (fun f => f._id)).Nodup) :
    ((∀ f ∈ db.failures, f._id = fid → f.is_active = false) →
        resolve_failure db (Ident.oid fid) et1 n1 = (db, false))
    ∧ ((∃ f ∈ db.failures, f._id = fid ∧ f.is_active = true) →
        (resolve_failure db (Ident.oid fid) et1 n1).2 = true
        ∧ (resolve_failure db (Ident.oid fid) et1 n1).1.failures
            = db.failures.map (fun f =>
                if identMatches (Ident.oid fid) f._id && f.is_active then
                  { f with end_time := some (et1.getD n1), is_active := false }
                else f))
    ∧ (resolve_failure (resolve_failure db (Ident.oid fid) et1 n1).1
          (Ident.oid fid) et2 n2
        = ((resolve_failure db (Ident.oid fid) et1 n1).1, false)) := by
  have hck : ∀ f : FailureDoc,
      (identMatches (Ident.oid fid) f._id && f.is_active) = true → f._id = fid := by
    intro f hf
    have h1 := (Bool.and_eq_true_iff.mp hf).1
    simpa [identMatches] using h1
  have hc1 : db.failures.countP
      (fun f => identMatches (Ident.oid fid) f._id && f.is_active) ≤ 1 :=
    countP_le_one_of_nodup_key (fun f => f._id) _ fid hck db.failures hnd
  have hkill : ∀ f : FailureDoc,
      (identMatches (Ident.oid fid)
        ({ f with end_time := some (et1.getD n1), is_active := false } : FailureDoc)._id
        && ({ f with end_time := some (et1.getD n1), is_active := false } : FailureDoc).is_active)
      = false := by
    intro f; simp
  refine ⟨?_, ?_, ?_⟩
  · intro h
    have hall : ∀ f ∈ db.failures,
        (identMatches (Ident.oid fid) f._id && f.is_active) = false := by
      intro f hf
      by_cases hid : f._id = fid
      · simp [identMatches, hid, h f hf hid]
      · simp [identMatches, beq_false_of_ne hid]
    have h0 := updateFirst_of_forall_not
      (fun f => identMatches (Ident.oid fid) f._id && f.is_active)
      (fun f => { f with end_time := some (et1.getD n1), is_active := false })
      db.failures hall
    simp only [resolve_failure, normalizeId]
    rw [h0]
  · rintro ⟨f, hf, hid, hact⟩
    constructor
    · simp only [resolve_failure, normalizeId]
      rw [updateFirst_snd_eq_any]
      exact List.any_eq_true.mpr ⟨f, hf, by simp [identMatches, hid, hact]⟩
    · simp only [resolve_failure, normalizeId]
      exact updateFirst_fst_eq_map _ _ db.failures hc1
  · have h3 := updateFirst_after_kill
      (fun f => identMatches (Ident.oid fid) f._id && f.is_active)
      (fun f => { f with end_time := some (et1.getD n1), is_active := false })
      (fun f => { f with end_time := some (et2.getD n2), is_active := false })
      hkill db.failures hc1
    simp only [resolve_failure, normalizeId]
    rw [h3]

/-- A store holding a single active failure (id 4 on machine 1). -/
def dbC2 : DB := { dbEmpty with failures := [⟨4, 1, none, true, 1⟩] }

/-- C2 witness: resolving failure 4 succeeds once, and a second resolve of the
same id is a no-op returning false. -/
theorem crud_C2_witness :
    (resolve_failure dbC2 (Ident.oid 4) (some 6) 7).2 = true
    ∧ resolve_failure (resolve_failure dbC2 (Ident.oid 4) (some 6) 7).1
        (Ident.oid 4) (some 8) 9
      = ((resolve_failure dbC2 (Ident.oid 4) (some 6) 7).1, false) := by
  have h := crud_C2_resolve_failure dbC2 4 (some 6) (some 8) 7 9 (by decide)
  exact ⟨(h.2.1 ⟨⟨4, 1, none, true, 1⟩, by decide, rfl, rfl⟩).1, h.2.2⟩

/-- C8: marking an existing model version processed returns true, flips only
the processed flag of the matching document, and repeating the call is an
idempotent no-op that still returns true. -/
theorem crud_C8_mark_processed (db : DB) (vid : ObjectId)
    (hnd : (db.versions.map (fun v => v._id)).Nodup)
    (hmem : ∃ v ∈ db.versions, v._id = vid) :
    (mark_model_version_processed db (Ident.oid vid)).2 = true
    ∧ (mark_model_version_processed db (Ident.oid vid)).1.versions
        = db.versions.map (fun v => if identMatches (Ident.oid vid) v._id
            then { v with is_processed := true } else v)
    ∧ mark_model_version_processed
        (mark_model_version_processed db (Ident.oid vid)).1 (Ident.oid vid)
      = ((mark_model_version_processed db (Ident.oid vid)).1, true) := by
  have hc1 : db.versions.countP (fun v => identMatches (Ident.oid vid) v._id) ≤ 1 := by
    apply countP_le_one_of_nodup_key (fun v => v._id) _ vid _ db.versions hnd
    intro a ha
    simpa [identMatches] using ha
  have hsnd : (mark_model_version_processed db (Ident.oid vid)).2 = true := by
    simp only [mark_model_version_processed, normalizeId]
    rw [updateFirst_snd_eq_any]
    rcases hmem with ⟨v, hv, hid⟩
    exact List.any_eq_true.mpr ⟨v, hv, by simp [identMatches, hid]⟩
  have hidem := updateFirst_idem
    (fun v => identMatches (Ident.oid vid) v._id)
    (fun v => { v with is_processed := true })
    (fun _ => rfl) (fun _ => rfl) db.versions
  refine ⟨hsnd, ?_, ?_⟩
  · simp only [mark_model_version_processed, normalizeId]
    exact updateFirst_fst_eq_map _ _ db.versions hc1
  · have heq : mark_model_version_processed
        (mark_model_version_processed db (Ident.oid vid)).1 (Ident.oid vid)
        = ((mark_model_version_processed db (Ident.oid vid)).1,
           (mark_model_version_processed db (Ident.oid vid)).2) := by
      simp only [mark_model_version_processed, normalizeId]
      rw [hidem]
    rw [heq, hsnd]

/-- A store holding a single unprocessed model version (id 6). -/
def dbC8 : DB := { dbEmpty with versions := [⟨6, "1", "run0", 2, false⟩] }

/-- C8 witness: on a concrete store, marking version 6 processed twice still
returns true and leaves the state of the first call unchanged. -/
theorem crud_C8_witness :
    (mark_model_version_processed dbC8 (Ident.oid 6)).2 = true
    ∧ mark_model_version_processed
        (mark_model_version_processed dbC8 (Ident.oid 6)).1 (Ident.oid 6)
      = ((mark_model_version_processed dbC8 (Ident.oid 6)).1, true) := by
  have h := crud_C8_mark_processed dbC8 6 (by decide)
      ⟨⟨6, "1", "run0", 2, false⟩, by decide, rfl⟩
  exact ⟨h.1, h.2.2⟩

/-- C3: starting from a cluster collection with at most one active cluster,
registering a new cluster model marked active first deactivates every active
cluster and inserts the new one active, leaving exactly one active cluster;
registering one not marked active performs no deactivation (it only appends
the new inactive document) and preserves the at-most-one-active invariant. -/
theorem crud_C3_cluster_active_exclusive (db : DB) (run1 run2 : String)
    (ver : Int) (nc : Int) (sil : Rat) (prof : JsonData)
    (cid1 cid2 : ObjectId) (t1 t2 : DateTime)
    (h : db.clusters.countP (fun c => c.is_active) ≤ 1) :
    ((create_cluster_model db run1 ver nc sil prof true cid1 t1).1.clusters.countP
        (fun c => c.is_active) = 1)
    ∧ ((create_cluster_model db run2 ver nc sil prof false cid2 t2).1.clusters
        = db.clusters ++ [⟨cid2, run2, ver, t2, false, nc, sil, prof⟩])
    ∧ ((create_cluster_model db run2 ver nc sil prof false cid2 t2).1.clusters.countP
        (fun c => c.is_active) ≤ 1) := by
  have h0 : (deactivateAllClusters db.clusters).countP (fun c => c.is_active) = 0 := by
    apply List.countP_eq_zero.mpr
    intro c hc
    rcases List.mem_map.mp hc with ⟨b, hb, rfl⟩
    cases hab : b.is_active <;> simp [hab]
  refine ⟨?_, rfl, ?_⟩
  · have hr : (create_cluster_model db run1 ver nc sil prof true cid1 t1).1.clusters
        = deactivateAllClusters db.clusters
          ++ [⟨cid1, run1, ver, t1, true, nc, sil, prof⟩] := rfl
    rw [hr, List.countP_append, h0]
    rfl
  · have hr : (create_cluster_model db run2 ver nc sil prof false cid2 t2).1.clusters
        = db.clusters ++ [⟨cid2, run2, ver, t2, false, nc, sil, prof⟩] := rfl
    rw [hr, List.countP_append]
    have h1 : ([(⟨cid2, run2, ver, t2, false, nc, sil, prof⟩ : ClusterDoc)]).countP
        (fun c => c.is_active) = 0 := rfl
    rw [h1, Nat.add_zero]
    exact h

/-- A store holding one active cluster model. -/
def dbC3 : DB := { dbEmpty with clusters := [⟨1, "runA", 1, 0, true, 3, 0, ""⟩] }

/-- C3 witness: registering a second, active cluster model over a store that
already has an active one leaves exactly one active cluster. -/
theorem crud_C3_witness :
    ((create_cluster_model dbC3 "runB" 2 4 0 "" true 2 5).1.clusters.countP
        (fun c => c.is_active) = 1) :=
  (crud_C3_cluster_active_exclusive dbC3 "runB" "runC" 2 4 0 "" 2 3 5 6
    (by decide)).1

/-- C1 counterexample: ingesting a reading for a machine reference (id 7)
that does not exist in the store does NOT create any Machine document — the
machines collection stays empty; only the reading is inserted.  The claim's
"implicitly creates that Machine with first_seen == last_seen" is false of
`create_sensor_reading`: the last-seen touch is a plain non-upserting update
that matches nothing. -/
theorem crud_C1_counterexample :
    create_sensor_reading dbEmpty (Ident.oid 7) [] none none 99 10 10
      = .ok ({ dbEmpty with readings := [⟨99, 10, [], 7, none⟩] }, 99) := rfl

/-- C1 amended: ingesting a reading never creates a Machine.  If the machine
reference is absent from the machines collection, the call inserts exactly
the reading and leaves the machines collection unchanged; if it is present
(unique ids), the call inserts the reading and updates only that machine's
`last_seen` field. -/
theorem crud_C1_amended (db : DB) (mid : ObjectId) (values : SensorValues)
    (ts : Option DateTime) (fid? : Option ObjectId) (rid : ObjectId)
    (now touchNow : DateTime) :
    ((∀ m ∈ db.machines, m._id ≠ mid) →
        create_sensor_reading db (Ident.oid mid) values ts (fid?.map Ident.oid)
            rid now touchNow
          = .ok ({ db with
              readings := db.readings ++ [⟨rid, ts.getD now, values, mid, fid?⟩] },
              rid))
    ∧ ((db.machines.map (fun m => m._id)).Nodup →
        create_sensor_reading db (Ident.oid mid) values ts (fid?.map Ident.oid)
            rid now touchNow
          = .ok ({ db with
              readings := db.readings ++ [⟨rid, ts.getD now, values, mid, fid?⟩],
              machines := db.machines.map (fun m =>
                if identMatches (Ident.oid mid) m._id
                then { m with last_seen := touchNow } else m) },
              rid)) := by
  have hun : create_sensor_reading db (Ident.oid mid) values ts
      (fid?.map Ident.oid) rid now touchNow
      = .ok ({ db with
          readings := db.readings ++ [⟨rid, ts.getD now, values, mid, fid?⟩],
          machines := (updateFirst (fun m => identMatches (Ident.oid mid) m._id)
              (fun m => { m with last_seen := touchNow }) db.machines).1 },
          rid) := by
    cases fid? <;> rfl
  constructor
  · intro h
    have hall : ∀ m ∈ db.machines, identMatches (Ident.oid mid) m._id = false := by
      intro m hm
      simp [identMatches, beq_false_of_ne (h m hm)]
    rw [hun, updateFirst_of_forall_not _ _ db.machines hall]
  · intro hnd
    have hc1 : db.machines.countP (fun m => identMatches (Ident.oid mid) m._id) ≤ 1 := by
      apply countP_le_one_of_nodup_key (fun m => m._id) _ mid _ db.machines hnd
      intro a ha
      simpa [identMatches] using ha
    rw [hun, updateFirst_fst_eq_map _ _ db.machines hc1]

/-- A store holding one machine (id 5) and nothing else. -/
def dbC1 : DB := { dbEmpty with machines := [⟨5, "mx", 1, 1⟩] }

/-- C1 amended witness: ingesting for the existing machine 5 appends the
reading and refreshes only that machine's last_seen. -/
theorem crud_C1_witness :
    create_sensor_reading dbC1 (Ident.oid 5) [] none none 42 3 4
      = .ok ({ dbC1 with
          readings := [⟨42, 3, [], 5, none⟩],
          machines := [⟨5, "mx", 1, 4⟩] }, 42) :=
  ((crud_C1_amended dbC1 5 [] none none 42 3 4).2 (by decide)).trans rfl

/-- C7: the reading is persisted before the cascaded last-seen touch is
attempted: when the cascade's store call fails, the resulting store state is
exactly the pre-call state plus the inserted reading (no rollback, the
machines collection untouched), and the error propagates. -/
theorem crud_C7_cascade_no_rollback (db : DB) (mid : ObjectId)
    (values : SensorValues) (ts : Option DateTime) (fid? : Option ObjectId)
    (rid : ObjectId) (now : DateTime) :
    (create_sensor_reading_cascadeFault db (Ident.oid mid) values ts
        (fid?.map Ident.oid) rid now).1
      = { db with readings := db.readings ++ [⟨rid, ts.getD now, values, mid, fid?⟩] }
    ∧ (create_sensor_reading_cascadeFault db (Ident.oid mid) values ts
        (fid?.map Ident.oid) rid now).2 = .error .storeError := by
  cases fid? <;> exact ⟨rfl, rfl⟩

/-- C5: `get_readings_in_timerange` returns exactly the stored readings of
the given machine whose timestamp lies in [t0, t1], inclusive on both
bounds, sorted by timestamp newest-first. -/
theorem db_C5_timerange (db : DB) (mid : ObjectId) (t0 t1 : DateTime) :
    List.Perm (get_readings_in_timerange db (Ident.oid mid) t0 t1)
      (db.readings.filter (fun r => identMatches (Ident.oid mid) r.machine_id
        && decide (t0 ≤ r.timestamp) && decide (r.timestamp ≤ t1)))
    ∧ (∀ r, r ∈ get_readings_in_timerange db (Ident.oid mid) t0 t1 ↔
        (r ∈ db.readings ∧ r.machine_id = mid ∧ t0 ≤ r.timestamp ∧ r.timestamp ≤ t1))
    ∧ List.Sorted newestFirst (get_readings_in_timerange db (Ident.oid mid) t0 t1) := by
  have hg : get_readings_in_timerange db (Ident.oid mid) t0 t1
      = sortByTimestampDesc (db.readings.filter
          (fun r => identMatches (Ident.oid mid) r.machine_id
            && decide (t0 ≤ r.timestamp) && decide (r.timestamp ≤ t1))) := rfl
  refine ⟨?_, ?_, ?_⟩
  · rw [hg]
    exact List.perm_insertionSort newestFirst _
  · intro r
    rw [hg]
    simp only [sortByTimestampDesc, List.mem_insertionSort, List.mem_filter]
    simp [identMatches, and_assoc]
  · rw [hg]
    exact List.sorted_insertionSort newestFirst _

/-- A store holding one active failure (id 3) for counterexamples about
identifier handling. -/
def dbC4 : DB := { dbEmpty with failures := [⟨3, 1, none, true, 1⟩] }

/-- C4 counterexample: the string "not-a-hex-id" is not a valid ObjectId, yet
resolve-failure and the last-seen touch do NOT reject it with an
InvalidIdentifier error: they run to completion against the store and return
an ordinary "no match" result. -/
theorem crud_C4_counterexample :
    ObjectId.is_valid "not-a-hex-id" = false
    ∧ normalizeId (Ident.str "not-a-hex-id") = Ident.str "not-a-hex-id"
    ∧ resolve_failure dbC4 (Ident.str "not-a-hex-id") none 5 = (dbC4, false)
    ∧ update_machine_last_seen dbC4 (Ident.str "not-a-hex-id") 5 = (dbC4, false) :=
  ⟨rfl, rfl, rfl, rfl⟩

/-- C4 amended: a caller-supplied string that is not a valid native id is not
rejected; every id-taking operation silently keeps the raw string, passes it
to the store filter where it matches no document, and returns its ordinary
negative result (false / none / empty) with the store unchanged. -/
theorem crud_C4_amended {α : Type} (s : String) (h : ObjectId.is_valid s = false)
    (db : DB) (getId : α → ObjectId) (applySet : α → α) (docs : List α)
    (et : Option DateTime) (now : DateTime) :
    normalizeId (Ident.str s) = Ident.str s
    ∧ update_document getId applySet docs (Ident.str s) = (docs, false)
    ∧ delete_document getId docs (Ident.str s) = (docs, false)
    ∧ resolve_failure db (Ident.str s) et now = (db, false)
    ∧ update_machine_last_seen db (Ident.str s) now = (db, false)
    ∧ mark_model_version_processed db (Ident.str s) = (db, false)
    ∧ get_document_by_id getId docs (Ident.str s) = none
    ∧ get_machine_readings db (Ident.str s) = [] := by
  have hnorm : normalizeId (Ident.str s) = Ident.str s := by
    simp [normalizeId, h]
  refine ⟨hnorm, ?_, ?_, ?_, ?_, ?_, ?_, ?_⟩
  · simp only [update_document, hnorm]
    exact updateFirst_of_forall_not _ _ docs (fun d _ => rfl)
  · simp only [delete_document, hnorm]
    exact deleteFirst_of_forall_not _ docs (fun d _ => rfl)
  · simp only [resolve_failure, hnorm]
    rw [updateFirst_of_forall_not
      (fun f => identMatches (Ident.str s) f._id && f.is_active)
      (fun f => { f with end_time := some (et.getD now), is_active := false })
      db.failures (fun f _ => rfl)]
  · simp only [update_machine_last_seen, hnorm]
    rw [updateFirst_of_forall_not
      (fun m => identMatches (Ident.str s) m._id)
      (fun m => { m with last_seen := now })
      db.machines (fun m _ => rfl)]
  · simp only [mark_model_version_processed, hnorm]
    rw [updateFirst_of_forall_not
      (fun v => identMatches (Ident.str s) v._id)
      (fun v => { v with is_processed := true })
      db.versions (fun v _ => rfl)]
  · simp only [get_document_by_id, hnorm]
    exact List.find?_eq_none.mpr (fun d _ => by simp [identMatches])
  · simp only [get_machine_readings, hnorm]
    rw [List.filter_eq_nil_iff.mpr (fun r _ => by simp [identMatches])]
    rfl

/-- C4 amended witness: the invalid string "zzz" flows through the generic
update and the readings lookup without an error, matching nothing. -/
theorem crud_C4_witness :
    update_document (fun m : MachineDoc => m._id)
      (fun m => { m with last_seen := 9 }) [⟨1, "m1", 0, 0⟩] (Ident.str "zzz")
      = ([⟨1, "m1", 0, 0⟩], false)
    ∧ get_machine_readings dbC4 (Ident.str "zzz") = [] := by
  have h := crud_C4_amended "zzz" (by decide) dbC4 (fun m : MachineDoc => m._id)
      (fun m => { m with last_seen := 9 }) [⟨1, "m1", 0, 0⟩] none 0
  exact ⟨h.2.1, h.2.2.2.2.2.2.2⟩

/-- C9 counterexample: `init_db` creates a machines index on last_seen that
the spec's enumeration does not contain ("no other indexes" fails), and it
does not create the compound machine-id plus time-descending readings index
the claim describes (it creates two separate single-field indexes instead),
so the created indexes differ from the enumerated ones. -/
theorem db_C9_counterexample :
    (⟨[("last_seen", Dir.desc)], false⟩ : IndexModel)
        ∈ indexesFor init_db_indexes "machines"
    ∧ (⟨[("last_seen", Dir.desc)], false⟩ : IndexModel)
        ∉ indexesFor spec_index_enumeration "machines"
    ∧ (⟨[("machine_id", Dir.asc), ("timestamp", Dir.desc)], false⟩ : IndexModel)
        ∉ indexesFor init_db_indexes "readings"
    ∧ (⟨[("machine_id", Dir.asc), ("timestamp", Dir.desc)], false⟩ : IndexModel)
        ∈ indexesFor spec_index_enumeration "readings"
    ∧ init_db_indexes ≠ spec_index_enumeration := by
  refine ⟨by decide, by decide, by decide, by decide, by decide⟩

/-- C9 amended: the index definitions `init_db` creates are exactly the
amended enumeration (the spec's list plus the extra single-field indexes,
with the machine-id/time indexes as separate single-field indexes). -/
theorem db_C9_amended : init_db_indexes = amended_index_enumeration := rfl

/-- C10: every store state reachable through the Failure operations of this
layer (create_failure, resolve_failure) satisfies the invariant that a
failure's active flag is set iff its end time is absent. -/
theorem crud_C10_failure_invariant (db : DB) (h : FailureOpsReach db) :
    failureInvariant db = true := by
  induction h with
  | empty db0 h0 => simp [failureInvariant, h0]
  | step_create db0 db' mid st fid now rid hr hc ih =>
    have hdb' : ∃ v : ObjectId, db' = { db0 with failures := db0.failures
        ++ [⟨fid, st.getD now, none, true, v⟩] } := by
      cases hv : PyObjectId.validate (normalizeId mid) with
      | error e => simp [create_failure, hv] at hc
      | ok v =>
        simp [create_failure, hv] at hc
        exact ⟨v, hc.1.symm⟩
    obtain ⟨v, rfl⟩ := hdb'
    simp only [failureInvariant, List.all_eq_true] at ih ⊢
    intro f hf
    rcases List.mem_append.mp hf with hf | hf
    · exact ih f hf
    · rw [List.mem_singleton.mp hf]
      rfl
  | step_resolve db0 fid et now hr ih =>
    simp only [failureInvariant, List.all_eq_true] at ih ⊢
    intro f hf
    have hf' : f ∈ (updateFirst
        (fun g => identMatches (normalizeId fid) g._id && g.is_active)
        (fun g => { g with end_time := some (et.getD now), is_active := false })
        db0.failures).1 := hf
    rcases mem_updateFirst_fst _ _ db0.failures f hf' with hm | ⟨b, hb, rfl⟩
    · exact ih f hm
    · rfl

/-- The reachable store used as the C10 witness. -/
def dbC10 : DB := { dbEmpty with failures := [⟨2, 5, none, true, 1⟩] }

/-- C10 witness: a concrete reachable state (create failure 2, then resolve
it) satisfies the invariant. -/
theorem crud_C10_witness :
    failureInvariant (resolve_failure dbC10 (Ident.oid 2) none 9).1 = true :=
  crud_C10_failure_invariant _
    (FailureOpsReach.step_resolve dbC10 (Ident.oid 2) none 9
      (FailureOpsReach.step_create dbEmpty dbC10 (Ident.oid 1) (some 5) 2 0 2
        (FailureOpsReach.empty dbEmpty rfl) rfl))

end Prism
